import Mathlib

/-!
Shallow embedding of the authentication/session-integrity core of the
leetcode-clone backend (auth-service): the mongoose `User` schema with its
lockout / token-version / ephemeral-token fields and methods, the
`TokenService`, the `AuthController` login/refresh/logout flows, the
`PasswordController` reset flow, the `authenticateToken` middleware and
the `OAuthService` Google strategy callback.

External cryptographic primitives (bcrypt hashing/compare, JWT
signing/verification) are modelled as oracles: the bcrypt hash is an
arbitrary function `bhash : String → String`, password comparison an
arbitrary `checkPw : String → String → Bool`, and token operations act on
already-decoded claim records (JWT signature checking is the `jsonwebtoken`
library, outside the core).  The Mongo document store is a `List User`;
`updateOne` with `$inc`/`$set`/`$unset` becomes an explicit update applied
to the stored record, computed (as in the source) from the loaded snapshot.
-/

namespace LCAuth

/-- The `User` mongoose document (auth-service `models/User`), restricted to
the authentication-relevant fields of the schema: identity, credential,
security/lockout, token-version and ephemeral-token fields.  Timestamps are
`Nat` milliseconds (`Date.now()`); nullable fields are `Option`. -/
structure User where
  id : Nat
  username : String
  email : String
  passwordHash : Option String
  role : String
  isActive : Bool
  isVerified : Bool
  loginAttempts : Nat
  lockUntil : Option Nat
  lastLogin : Option Nat
  tokenVersion : Nat
  emailVerificationToken : Option String
  emailVerificationExpires : Option Nat
  passwordResetToken : Option String
  passwordResetExpires : Option Nat
  oauthProvider : String
  oauthId : Option String
  subscriptionPlan : String
deriving DecidableEq, Repr

/-- Error shape of the shared error classes (`errorHandler.js`) and of the
legacy controllers' plain `res.status(s).json({message})` responses: HTTP
status, error code (empty for the plain-JSON responses) and message. -/
structure AppErr where
  status : Nat
  code : String
  message : String
deriving DecidableEq, Repr

/-- `AuthenticationError('Invalid credentials')` (401). -/
def invalidCredentialsErr : AppErr :=
  ⟨401, "AUTHENTICATION_ERROR", "Invalid credentials"⟩

/-- `AuthenticationError('Account is temporarily locked due to multiple failed login attempts')`. -/
def accountLockedErr : AppErr :=
  ⟨401, "AUTHENTICATION_ERROR",
    "Account is temporarily locked due to multiple failed login attempts"⟩

/-- `AuthenticationError('Invalid refresh token')` (401). -/
def invalidRefreshErr : AppErr :=
  ⟨401, "AUTHENTICATION_ERROR", "Invalid refresh token"⟩

/-- `res.status(400).json({message: 'Invalid or expired reset token'})` in
`PasswordController.reset`. -/
def invalidResetErr : AppErr :=
  ⟨400, "", "Invalid or expired reset token"⟩

/-- `res.status(401).json({message: 'User not found or inactive'})` in the
`authenticateToken` middleware. -/
def userNotFoundOrInactiveErr : AppErr :=
  ⟨401, "", "User not found or inactive"⟩

/-- `maxAttempts` in `UserSchema.methods.incrementLoginAttempts`. -/
def maxLoginAttempts : Nat := 5

/-- `lockTime = 30 * 60 * 1000` (30 minutes in ms). -/
def lockTimeMs : Nat := 30 * 60 * 1000

/-- Virtual `isLocked`: `!!(this.lockUntil && this.lockUntil > Date.now())`. -/
def isLocked (u : User) (now : Nat) : Bool :=
  match u.lockUntil with
  | some t => now < t
  | none => false

/-- The guard `this.lockUntil && this.lockUntil < Date.now()` at the top of
`incrementLoginAttempts`: the stored lock exists but has already elapsed. -/
def lockExpired (u : User) (now : Nat) : Bool :=
  match u.lockUntil with
  | some t => t < now
  | none => false

/-- The `updateOne` document built by `incrementLoginAttempts` from the
loaded snapshot `snap`, applied to the stored record `store`.  If the
snapshot's lock has expired, `$unset` both fields; otherwise `$inc` the
counter atomically on the store and, when the snapshot's count would reach
`maxAttempts` and the snapshot is not locked, `$set` the lock. -/
def applyIncrementFrom (snap : User) (now : Nat) (store : User) : User :=
  if lockExpired snap now then
    { store with loginAttempts := 0, lockUntil := none }
  else
    let store' := { store with loginAttempts := store.loginAttempts + 1 }
    if snap.loginAttempts + 1 ≥ maxLoginAttempts ∧ isLocked snap now = false then
      { store' with lockUntil := some (now + lockTimeMs) }
    else store'

/-- `UserSchema.methods.incrementLoginAttempts`, in the sequential case where
the stored record is the one just loaded. -/
def incrementLoginAttempts (u : User) (now : Nat) : User :=
  applyIncrementFrom u now u

/-- `UserSchema.methods.resetLoginAttempts`: `$unset` both lockout fields. -/
def resetLoginAttempts (u : User) : User :=
  { u with loginAttempts := 0, lockUntil := none }

/-- `UserSchema.methods.comparePassword`: false when no hash is stored,
otherwise `bcrypt.compare(candidate, hash)` via the oracle `checkPw`. -/
def comparePassword (checkPw : String → String → Bool) (u : User)
    (candidate : String) : Bool :=
  match u.passwordHash with
  | none => false
  | some h => checkPw candidate h

/-- The check `this.passwordHash.startsWith('$2')` of the auth-service
pre-save hook: the first two characters are `$` and `2`. -/
def startsWithBcryptMarker (p : String) : Bool :=
  match p.data with
  | c1 :: c2 :: _ => c1 == '$' && c2 == '2'
  | _ => false

/-- The pre-save hook of the auth-service `UserSchema`: skip hashing when the
value already starts with `$2` (treated as an existing bcrypt hash),
otherwise store `bcrypt.hash(value, salt)`. -/
def hashIfNotBcrypt (bhash : String → String) (p : String) : String :=
  if startsWithBcryptMarker p then p else bhash p

/-- The pre-save hook of `database/mongodb/schemas/User.js`: always hashes a
modified password value. -/
def dbSchemaStoredPassword (bhash : String → String) (p : String) : String :=
  bhash p

/-- Payload of `TokenService.generateAccessToken`. -/
structure AccessClaims where
  userId : Nat
  email : String
  username : String
  role : String
  subscription : String
  tokenVersion : Nat
deriving DecidableEq, Repr

/-- Payload of `TokenService.generateRefreshToken` (`type: 'refresh'`). -/
structure RefreshClaims where
  userId : Nat
  tokenVersion : Nat
  type : String
deriving DecidableEq, Repr

/-- Result of `TokenService.generateTokens`. -/
structure TokenPair where
  accessToken : AccessClaims
  refreshToken : RefreshClaims
deriving DecidableEq, Repr

/-- `TokenService.generateAccessToken`: claims minted from the live record. -/
def generateAccessToken (u : User) : AccessClaims :=
  ⟨u.id, u.email, u.username, u.role, u.subscriptionPlan, u.tokenVersion⟩

/-- `TokenService.generateRefreshToken`. -/
def generateRefreshToken (u : User) : RefreshClaims :=
  ⟨u.id, u.tokenVersion, "refresh"⟩

/-- `TokenService.generateTokens`. -/
def generateTokens (u : User) : TokenPair :=
  ⟨generateAccessToken u, generateRefreshToken u⟩

/-- `User.findById` over the store. -/
def findById (db : List User) (uid : Nat) : Option User :=
  db.find? (fun u => u.id == uid)

/-- Replace the record(s) bearing `uid` by the result of `f` (a per-document
`updateOne`/`save`). -/
def updateById (db : List User) (uid : Nat) (f : User → User) : List User :=
  db.map (fun v => if v.id == uid then f v else v)

/-- Result of the login flow: the authenticated user document, or a typed
error. -/
inductive LoginOutcome where
  | ok (user : User)
  | err (e : AppErr)
deriving DecidableEq, Repr

/-- The `User.findOne` filter of `AuthController.login`:
`$or: [{email: email || ''}, {username: username || ''}], isActive: true`. -/
def matchesLogin (email? username? : Option String) (u : User) : Bool :=
  (u.email == email?.getD "" || u.username == username?.getD "") && u.isActive

/-- `AuthController.login`: find the active user by email-or-username, reject
when absent (`Invalid credentials`), reject when locked (before the password
check, without incrementing), verify the password, on failure increment the
lockout counter and fail generically, on success reset the counter and stamp
`lastLogin`.  Returns the outcome and the updated store. -/
def login (checkPw : String → String → Bool) (db : List User)
    (email? username? : Option String) (password : String) (now : Nat) :
    LoginOutcome × List User :=
  match db.find? (matchesLogin email? username?) with
  | none => (.err invalidCredentialsErr, db)
  | some u =>
    if isLocked u now then
      (.err accountLockedErr, db)
    else if comparePassword checkPw u password then
      let afterReset := if u.loginAttempts > 0 then resetLoginAttempts u else u
      let u' := { afterReset with lastLogin := some now }
      (.ok u', updateById db u.id (fun _ => u'))
    else
      (.err invalidCredentialsErr,
        updateById db u.id (fun v => applyIncrementFrom u now v))

/-- `AuthController.refreshToken`, after `verifyRefreshToken` has decoded the
claims: load the user by id and reject unless it exists, is active and its
stored `tokenVersion` equals the embedded one; otherwise mint a fresh pair. -/
def refreshTokenOp (db : List User) (c : RefreshClaims) :
    Except AppErr TokenPair :=
  match findById db c.userId with
  | none => .error invalidRefreshErr
  | some u =>
    if u.isActive ∧ u.tokenVersion = c.tokenVersion then
      .ok (generateTokens u)
    else
      .error invalidRefreshErr

/-- `AuthController.logout` on the loaded user document:
`user.tokenVersion += 1; await user.save()`. -/
def logoutUser (u : User) : User :=
  { u with tokenVersion := u.tokenVersion + 1 }

/-- `PasswordController.change` applied to the loaded user (after the current
password check): set the new hash (run through the pre-save hook) and bump
`tokenVersion`. -/
def applyPasswordChange (bhash : String → String) (u : User)
    (newPw : String) : User :=
  { u with passwordHash := some (hashIfNotBcrypt bhash newPw),
           tokenVersion := u.tokenVersion + 1 }

/-- The update performed by `PasswordController.reset` on the matched user:
set the new hash, clear both reset-token fields and bump `tokenVersion`, all
in the same save. -/
def applyPasswordReset (bhash : String → String) (u : User)
    (newPw : String) : User :=
  { u with passwordHash := some (hashIfNotBcrypt bhash newPw),
           passwordResetToken := none,
           passwordResetExpires := none,
           tokenVersion := u.tokenVersion + 1 }

/-- The `User.findOne` filter of `PasswordController.reset`:
`passwordResetToken: token, passwordResetExpires: { $gt: Date.now() }`. -/
def resetTokenMatches (token : String) (now : Nat) (u : User) : Bool :=
  u.passwordResetToken == some token &&
    (match u.passwordResetExpires with
     | some e => now < e
     | none => false)

/-- `PasswordController.reset`: look the user up by stored token value with
unexpired expiry; on a miss answer 400 `Invalid or expired reset token`,
otherwise apply `applyPasswordReset` to the stored record. -/
def passwordResetFlow (bhash : String → String) (db : List User)
    (token newPw : String) (now : Nat) : Except AppErr Unit × List User :=
  match db.find? (resetTokenMatches token now) with
  | none => (.error invalidResetErr, db)
  | some u =>
    (.ok (), updateById db u.id (fun _ => applyPasswordReset bhash u newPw))

/-- The `authenticateToken` middleware after JWT verification: load the user
by the decoded id and reject when absent or inactive. -/
def authenticateTokenMw (db : List User) (decoded : AccessClaims) :
    Except AppErr AccessClaims :=
  match findById db decoded.userId with
  | none => .error userNotFoundOrInactiveErr
  | some u =>
    if u.isActive then .ok decoded else .error userNotFoundOrInactiveErr

/-- `OAuthService.generateUsername`: lower-case the display name, strip
characters outside `[a-z0-9]`, truncate to 20 chars and append
`Math.floor(Math.random() * 1000)` (the random draw is the `rand` input). -/
def generateUsername (displayName : String) (rand : Nat) : String :=
  String.mk (((displayName.toLower).data.filter
    (fun c => c.isLower || c.isDigit)).take 20) ++ toString (rand % 1000)

/-- The lookup `User.findOne({ oauthId: profile.id, oauthProvider: p })`. -/
def findByProviderId (db : List User) (provider pid : String) : Option User :=
  db.find? (fun u => u.oauthId == some pid && u.oauthProvider == provider)

/-- The email-link branch of the strategy callback: set
`oauthProvider`/`oauthId`, mark verified, save. -/
def linkOAuth (provider pid : String) (u : User) : User :=
  { u with oauthProvider := provider, oauthId := some pid, isVerified := true }

/-- The `new User({...})` document built by the Google strategy callback when
neither lookup matched: passwordless, verified, schema defaults elsewhere. -/
def newGoogleUser (newId : Nat) (pid email displayName : String)
    (rand : Nat) : User :=
  { id := newId
    username := generateUsername displayName rand
    email := email
    passwordHash := none
    role := "user"
    isActive := true
    isVerified := true
    loginAttempts := 0
    lockUntil := none
    lastLogin := none
    tokenVersion := 0
    emailVerificationToken := none
    emailVerificationExpires := none
    passwordResetToken := none
    passwordResetExpires := none
    oauthProvider := "google"
    oauthId := some pid
    subscriptionPlan := "free" }

/-- The Google strategy callback of `OAuthService`: return the
`(provider, externalId)` match unchanged; else link onto the email match;
else create a new passwordless record.  Returns the resolved user and the
updated store. -/
def resolveGoogle (db : List User) (pid email displayName : String)
    (rand newId : Nat) : User × List User :=
  match findByProviderId db "google" pid with
  | some u => (u, db)
  | none =>
    match db.find? (fun u => u.email == email) with
    | some u =>
      (linkOAuth "google" pid u, updateById db u.id (linkOAuth "google" pid))
    | none =>
      let nu := newGoogleUser newId pid email displayName rand
      (nu, db ++ [nu])

/-- The serialized shape produced by `UserSchema.methods.toJSON`: every
modelled field except the eight deleted sensitive ones. -/
structure PublicUser where
  id : Nat
  username : String
  email : String
  role : String
  isActive : Bool
  isVerified : Bool
  lastLogin : Option Nat
  oauthProvider : String
  oauthId : Option String
  subscriptionPlan : String
deriving DecidableEq, Repr

/-- `UserSchema.methods.toJSON`: convert to a plain object and delete
`passwordHash`, `loginAttempts`, `lockUntil`, `emailVerificationToken`,
`emailVerificationExpires`, `passwordResetToken`, `passwordResetExpires`
and `tokenVersion`. -/
def toJSONUser (u : User) : PublicUser :=
  ⟨u.id, u.username, u.email, u.role, u.isActive, u.isVerified, u.lastLogin,
    u.oauthProvider, u.oauthId, u.subscriptionPlan⟩

/-- N failed-login store updates, each computed from its own loaded snapshot,
committed in sequence against the store (the interleaving where all loads
happen before the writes is `snaps` a list of stale snapshots). -/
def parallelIncrements (snaps : List User) (now : Nat) (store : User) : User :=
  snaps.foldl (fun st s => applyIncrementFrom s now st) store

/-- A concrete active local user with `tokenVersion` 0, used by witnesses. -/
def baseUser : User :=
  { id := 1
    username := "alice01"
    email := "alice@x.com"
    passwordHash := some "$2b$12$storedhash"
    role := "user"
    isActive := true
    isVerified := false
    loginAttempts := 0
    lockUntil := none
    lastLogin := none
    tokenVersion := 0
    emailVerificationToken := none
    emailVerificationExpires := none
    passwordResetToken := none
    passwordResetExpires := none
    oauthProvider := "local"
    oauthId := none
    subscriptionPlan := "free" }

/-- Refresh-token claims minted for `baseUser` at epoch 0. -/
def cEx1 : RefreshClaims := ⟨1, 0, "refresh"⟩

lemma find_singleton_pos {p : User → Bool} {v : User} (h : p v = true) :
    [v].find? p = some v := by
  simp [List.find?, h]

lemma refresh_single_mismatch (v : User) (c : RefreshClaims)
    (hid : v.id = c.userId) (hne : v.tokenVersion ≠ c.tokenVersion) :
    refreshTokenOp [v] c = .error invalidRefreshErr := by
  unfold refreshTokenOp
  rw [show findById [v] c.userId = some v from
    find_singleton_pos (by simp [hid])]
  simp only
  rw [if_neg (fun h => hne h.2)]

lemma refresh_single_match (v : User) (c : RefreshClaims)
    (hid : v.id = c.userId) (hact : v.isActive = true)
    (heq : v.tokenVersion = c.tokenVersion) :
    refreshTokenOp [v] c = .ok (generateTokens v) := by
  unfold refreshTokenOp
  rw [show findById [v] c.userId = some v from
    find_singleton_pos (by simp [hid])]
  simp only
  rw [if_pos ⟨hact, heq⟩]

/-- C1: a refresh token embedding epoch `E` is rejected by the refresh
operation after any of logout, password change or password reset has made
the stored `tokenVersion` strictly greater than `E` (each bumps it by one),
with `AuthenticationError('Invalid refresh token')`; while the stored
version still equals `E` and the user is active, refresh succeeds and mints
a fresh token pair from the live record. -/
theorem refresh_epoch_revocation (bhash : String → String) (u : User)
    (c : RefreshClaims) (hid : c.userId = u.id)
    (hE : c.tokenVersion = u.tokenVersion) :
    (∀ v : User, v.id = c.userId → c.tokenVersion < v.tokenVersion →
        refreshTokenOp [v] c = .error invalidRefreshErr)
  ∧ c.tokenVersion < (logoutUser u).tokenVersion
  ∧ (∀ pw, c.tokenVersion < (applyPasswordChange bhash u pw).tokenVersion)
  ∧ (∀ pw, c.tokenVersion < (applyPasswordReset bhash u pw).tokenVersion)
  ∧ refreshTokenOp [logoutUser u] c = .error invalidRefreshErr
  ∧ (∀ pw, refreshTokenOp [applyPasswordChange bhash u pw] c
      = .error invalidRefreshErr)
  ∧ (∀ pw, refreshTokenOp [applyPasswordReset bhash u pw] c
      = .error invalidRefreshErr)
  ∧ (u.isActive = true → refreshTokenOp [u] c = .ok (generateTokens u)) := by
  refine ⟨?_, ?_, ?_, ?_, ?_, ?_, ?_, ?_⟩
  · intro v hv hlt
    exact refresh_single_mismatch v c hv (by omega)
  · simp [logoutUser, hE]
  · intro pw; simp [applyPasswordChange, hE]
  · intro pw; simp [applyPasswordReset, hE]
  · exact refresh_single_mismatch _ c (by simp [logoutUser, hid])
      (by simp [logoutUser]; omega)
  · intro pw
    exact refresh_single_mismatch _ c (by simp [applyPasswordChange, hid])
      (by simp [applyPasswordChange]; omega)
  · intro pw
    exact refresh_single_mismatch _ c (by simp [applyPasswordReset, hid])
      (by simp [applyPasswordReset]; omega)
  · intro hact
    exact refresh_single_match u c hid.symm hact hE.symm

/-- Witness for C1: concrete epoch-0 claims against `baseUser` after each
revoking operation and in the accepting state. -/
theorem refresh_epoch_revocation_witness :
    refreshTokenOp [logoutUser baseUser] cEx1 = .error invalidRefreshErr
  ∧ refreshTokenOp [applyPasswordChange (fun s => s) baseUser "NewPass123"] cEx1
      = .error invalidRefreshErr
  ∧ refreshTokenOp [applyPasswordReset (fun s => s) baseUser "NewPass123"] cEx1
      = .error invalidRefreshErr
  ∧ refreshTokenOp [baseUser] cEx1 = .ok (generateTokens baseUser) :=
  ⟨(refresh_epoch_revocation (fun s => s) baseUser cEx1 rfl rfl).2.2.2.2.1,
   (refresh_epoch_revocation (fun s => s) baseUser cEx1 rfl rfl).2.2.2.2.2.1
     "NewPass123",
   (refresh_epoch_revocation (fun s => s) baseUser cEx1 rfl rfl).2.2.2.2.2.2.1
     "NewPass123",
   (refresh_epoch_revocation (fun s => s) baseUser cEx1 rfl rfl).2.2.2.2.2.2.2
     rfl⟩

/-- C2: from an unlocked state, the failed-attempt update that brings the
counter to the threshold 5 sets `lockUntil = now + 30 minutes` (so the
account is then locked); any update leaving the counter below 5 sets no
lock; and once the stored lock has elapsed, the next attempt's update
lazily clears both the counter and the lock. -/
theorem lockout_state_machine (u : User) (now : Nat) :
    (u.lockUntil = none → u.loginAttempts + 1 = maxLoginAttempts →
        incrementLoginAttempts u now
          = { u with loginAttempts := u.loginAttempts + 1,
                     lockUntil := some (now + lockTimeMs) }
      ∧ isLocked (incrementLoginAttempts u now) now = true)
  ∧ (u.lockUntil = none → u.loginAttempts + 1 < maxLoginAttempts →
        incrementLoginAttempts u now
          = { u with loginAttempts := u.loginAttempts + 1 }
      ∧ isLocked (incrementLoginAttempts u now) now = false)
  ∧ (∀ t, u.lockUntil = some t → t < now →
        incrementLoginAttempts u now
          = { u with loginAttempts := 0, lockUntil := none }) := by
  refine ⟨?_, ?_, ?_⟩
  · intro hnone h5
    have hexp : lockExpired u now = false := by simp [lockExpired, hnone]
    have hloc : isLocked u now = false := by simp [isLocked, hnone]
    have hcond : u.loginAttempts + 1 ≥ maxLoginAttempts ∧
        isLocked u now = false := ⟨le_of_eq h5.symm, hloc⟩
    constructor
    · unfold incrementLoginAttempts applyIncrementFrom
      rw [hexp, if_neg (by simp), if_pos hcond]
    · unfold incrementLoginAttempts applyIncrementFrom
      rw [hexp, if_neg (by simp), if_pos hcond]
      simp [isLocked, lockTimeMs]
  · intro hnone hlt
    have hexp : lockExpired u now = false := by simp [lockExpired, hnone]
    have hcond : ¬(u.loginAttempts + 1 ≥ maxLoginAttempts ∧
        isLocked u now = false) := fun h => absurd h.1 (by omega)
    constructor
    · unfold incrementLoginAttempts applyIncrementFrom
      rw [hexp, if_neg (by simp), if_neg hcond]
    · unfold incrementLoginAttempts applyIncrementFrom
      rw [hexp, if_neg (by simp), if_neg hcond]
      simp [isLocked, hnone]
  · intro t ht hlt
    have hexp : lockExpired u now = true := by simp [lockExpired, ht, hlt]
    unfold incrementLoginAttempts applyIncrementFrom
    rw [hexp, if_pos rfl]

/-- Witness for C2: a user at 4 failed attempts gets locked for 30 minutes
by the 5th failure. -/
theorem lockout_state_machine_witness :
    incrementLoginAttempts { baseUser with loginAttempts := 4 } 1000
      = { baseUser with loginAttempts := 5,
                        lockUntil := some (1000 + lockTimeMs) }
  ∧ isLocked (incrementLoginAttempts { baseUser with loginAttempts := 4 } 1000)
      1000 = true :=
  (lockout_state_machine { baseUser with loginAttempts := 4 } 1000).1 rfl rfl

/-- A user currently locked (stored `lockUntil` in the future of the
witness timestamps). -/
def lockedUserEx : User :=
  { baseUser with loginAttempts := 5, lockUntil := some 5000 }

/-- C3: when the looked-up user is currently locked, login rejects with the
account-locked error before consulting the password oracle at all (the
outcome is the same for every oracle), leaves the store unchanged (no
counter increment), and that error differs from the generic
invalid-credentials error. -/
theorem locked_login_precheck (checkPw : String → String → Bool)
    (db : List User) (e un : Option String) (pw : String) (now : Nat)
    (u : User) (hfind : db.find? (matchesLogin e un) = some u)
    (hl : isLocked u now = true) :
    login checkPw db e un pw now = (.err accountLockedErr, db)
  ∧ accountLockedErr ≠ invalidCredentialsErr
  ∧ (∀ checkPw2, login checkPw2 db e un pw now
      = login checkPw db e un pw now) := by
  have hmain : ∀ f : String → String → Bool,
      login f db e un pw now = (.err accountLockedErr, db) := by
    intro f
    simp only [login, hfind]
    rw [if_pos hl]
  exact ⟨hmain checkPw, by decide, fun f => (hmain f).trans (hmain checkPw).symm⟩

/-- Witness for C3: a concretely locked user; the instantiated outcome also
agrees with a second, different password oracle. -/
theorem locked_login_precheck_witness :
    login (fun _ _ => true) [lockedUserEx] (some "alice@x.com") none
      "CorrectPw1" 1000 = (.err accountLockedErr, [lockedUserEx])
  ∧ accountLockedErr ≠ invalidCredentialsErr
  ∧ login (fun _ _ => false) [lockedUserEx] (some "alice@x.com") none
      "CorrectPw1" 1000
    = login (fun _ _ => true) [lockedUserEx] (some "alice@x.com") none
      "CorrectPw1" 1000 :=
  ⟨(locked_login_precheck (fun _ _ => true) [lockedUserEx]
      (some "alice@x.com") none "CorrectPw1" 1000 lockedUserEx
      (by decide) (by decide)).1,
   (locked_login_precheck (fun _ _ => true) [lockedUserEx]
      (some "alice@x.com") none "CorrectPw1" 1000 lockedUserEx
      (by decide) (by decide)).2.1,
   (locked_login_precheck (fun _ _ => true) [lockedUserEx]
      (some "alice@x.com") none "CorrectPw1" 1000 lockedUserEx
      (by decide) (by decide)).2.2 (fun _ _ => false)⟩

/-- C5: a login whose identifier matches no active user and a login that
finds an unlocked user but fails the password check produce the very same
error value: 401 `AUTHENTICATION_ERROR` with message `Invalid credentials`,
revealing nothing about whether the identifier existed. -/
theorem login_enumeration_safe (checkPw : String → String → Bool)
    (db : List User) (e1 un1 e2 un2 : Option String) (pw1 pw2 : String)
    (now1 now2 : Nat) (u : User)
    (h1 : db.find? (matchesLogin e1 un1) = none)
    (h2 : db.find? (matchesLogin e2 un2) = some u)
    (hnl : isLocked u now2 = false)
    (hbad : comparePassword checkPw u pw2 = false) :
    (login checkPw db e1 un1 pw1 now1).fst = .err invalidCredentialsErr
  ∧ (login checkPw db e2 un2 pw2 now2).fst = .err invalidCredentialsErr
  ∧ (login checkPw db e1 un1 pw1 now1).fst
      = (login checkPw db e2 un2 pw2 now2).fst := by
  have hA : (login checkPw db e1 un1 pw1 now1).fst
      = .err invalidCredentialsErr := by
    simp only [login, h1]
  have hB : (login checkPw db e2 un2 pw2 now2).fst
      = .err invalidCredentialsErr := by
    simp only [login, h2]
    rw [if_neg (by simp [hnl]), if_neg (by simp [hbad])]
  exact ⟨hA, hB, hA.trans hB.symm⟩

/-- Witness for C5: the store holds one active user; a login with an unknown
email and one with the right email but failing password check produce the
identical generic error. -/
theorem login_enumeration_safe_witness :
    (login (fun _ _ => false) [baseUser] (some "nonexistent@x.com") none
        "anything" 1000).fst = .err invalidCredentialsErr
  ∧ (login (fun _ _ => false) [baseUser] (some "alice@x.com") none
        "wrongpassword" 1000).fst = .err invalidCredentialsErr
  ∧ (login (fun _ _ => false) [baseUser] (some "nonexistent@x.com") none
        "anything" 1000).fst
      = (login (fun _ _ => false) [baseUser] (some "alice@x.com") none
        "wrongpassword" 1000).fst :=
  login_enumeration_safe (fun _ _ => false) [baseUser]
    (some "nonexistent@x.com") none (some "alice@x.com") none
    "anything" "wrongpassword" 1000 1000 baseUser
    (by decide) (by decide) (by decide) (by decide)

/-- A user carrying a stored, unexpired password-reset token. -/
def resetUserEx : User :=
  { baseUser with passwordResetToken := some "rtok",
                  passwordResetExpires := some 5000 }

/-- C4: consuming a stored, unexpired password-reset token succeeds and, in
the same update, clears `passwordResetToken` and `passwordResetExpires` and
increments `tokenVersion`; consuming the same raw token again afterwards
fails with the invalid-or-expired-token error at every timestamp (even
before the original expiry) and leaves the store unchanged. -/
theorem reset_token_single_use (bhash : String → String) (db : List User)
    (token newPw : String) (now : Nat) (u : User)
    (hfind : db.find? (resetTokenMatches token now) = some u)
    (huniq : ∀ v ∈ db, v.passwordResetToken = some token → v.id = u.id) :
    (passwordResetFlow bhash db token newPw now).fst = .ok ()
  ∧ (∀ v ∈ (passwordResetFlow bhash db token newPw now).snd, v.id = u.id →
        v.passwordResetToken = none ∧ v.passwordResetExpires = none
      ∧ v.tokenVersion = u.tokenVersion + 1)
  ∧ applyPasswordReset bhash u newPw
      ∈ (passwordResetFlow bhash db token newPw now).snd
  ∧ (∀ pw2 now2,
      passwordResetFlow bhash (passwordResetFlow bhash db token newPw now).snd
        token pw2 now2
      = (.error invalidResetErr,
          (passwordResetFlow bhash db token newPw now).snd)) := by
  have hflow : passwordResetFlow bhash db token newPw now
      = (.ok (), updateById db u.id
          (fun _ => applyPasswordReset bhash u newPw)) := by
    simp only [passwordResetFlow, hfind]
  refine ⟨by rw [hflow], ?_, ?_, ?_⟩
  · intro v hv hvid
    rw [hflow] at hv
    simp only [updateById, List.mem_map] at hv
    obtain ⟨w, _, hw⟩ := hv
    by_cases hcase : (w.id == u.id) = true
    · rw [if_pos hcase] at hw
      subst hw
      exact ⟨rfl, rfl, rfl⟩
    · rw [if_neg (by simpa using hcase)] at hw
      subst hw
      exact absurd hvid (by simpa using hcase)
  · rw [hflow]
    simp only [updateById, List.mem_map]
    exact ⟨u, List.mem_of_find?_eq_some hfind, by simp⟩
  · intro pw2 now2
    rw [hflow]
    have hnone : (updateById db u.id
        (fun _ => applyPasswordReset bhash u newPw)).find?
          (resetTokenMatches token now2) = none := by
      rw [List.find?_eq_none]
      intro v hv
      simp only [updateById, List.mem_map] at hv
      obtain ⟨w, hwmem, hw⟩ := hv
      by_cases hcase : (w.id == u.id) = true
      · rw [if_pos hcase] at hw
        subst hw
        simp [resetTokenMatches, applyPasswordReset]
      · rw [if_neg (by simpa using hcase)] at hw
        subst hw
        intro hpred
        have htok : w.passwordResetToken = some token := by
          have := (Bool.and_eq_true _ _).mp hpred
          simpa using this.1
        exact absurd (huniq w hwmem htok) (by simpa using hcase)
    simp only [passwordResetFlow, hnone]

/-- Witness for C4: a one-user store holding token `rtok`; the first
consumption succeeds and clears, a second consumption before the original
expiry fails and changes nothing. -/
theorem reset_token_single_use_witness :
    (passwordResetFlow (fun s => s) [resetUserEx] "rtok" "NewPass123" 1000).fst
      = .ok ()
  ∧ applyPasswordReset (fun s => s) resetUserEx "NewPass123"
      ∈ (passwordResetFlow (fun s => s) [resetUserEx] "rtok" "NewPass123"
          1000).snd
  ∧ passwordResetFlow (fun s => s)
      (passwordResetFlow (fun s => s) [resetUserEx] "rtok" "NewPass123"
        1000).snd "rtok" "Other1234" 2000
    = (.error invalidResetErr,
        (passwordResetFlow (fun s => s) [resetUserEx] "rtok" "NewPass123"
          1000).snd) :=
  ⟨(reset_token_single_use (fun s => s) [resetUserEx] "rtok" "NewPass123"
      1000 resetUserEx (by decide) (by decide)).1,
   (reset_token_single_use (fun s => s) [resetUserEx] "rtok" "NewPass123"
      1000 resetUserEx (by decide) (by decide)).2.2.1,
   (reset_token_single_use (fun s => s) [resetUserEx] "rtok" "NewPass123"
      1000 resetUserEx (by decide) (by decide)).2.2.2 "Other1234" 2000⟩

lemma find_after_link (db : List User) (pid email : String) (u : User)
    (h1 : findByProviderId db "google" pid = none)
    (h2 : db.find? (fun w => w.email == email) = some u)
    (hids : (db.map User.id).Nodup) :
    findByProviderId (updateById db u.id (linkOAuth "google" pid))
      "google" pid = some (linkOAuth "google" pid u) := by
  induction db with
  | nil => simp [List.find?] at h2
  | cons w rest ih =>
    simp only [List.map_cons, List.nodup_cons] at hids
    obtain ⟨hwid, hrest⟩ := hids
    have hqw : (w.oauthId == some pid && w.oauthProvider == "google")
        = false := by
      by_contra hq
      have hq' : (w.oauthId == some pid && w.oauthProvider == "google")
          = true := by simpa using hq
      simp only [findByProviderId, List.find?, hq'] at h1
      exact Option.noConfusion h1
    have h1' : findByProviderId rest "google" pid = none := by
      simpa only [findByProviderId, List.find?, hqw] using h1
    by_cases hpw : (w.email == email) = true
    · have hu : u = w := by
        simp only [List.find?, hpw] at h2
        exact (Option.some.inj h2).symm
      subst hu
      simp only [updateById, List.map_cons, beq_self_eq_true, if_pos]
      simp [findByProviderId, List.find?, linkOAuth]
    · have hpwf : (w.email == email) = false := by simpa using hpw
      have h2' : rest.find? (fun v => v.email == email) = some u := by
        simpa only [List.find?, hpwf] using h2
      have hne : (w.id == u.id) = false := by
        simp only [beq_eq_false_iff_ne, ne_eq]
        intro h
        have hmem : u.id ∈ rest.map User.id :=
          List.mem_map_of_mem User.id (List.mem_of_find?_eq_some h2')
        rw [← h] at hmem
        exact hwid hmem
      simp only [updateById, List.map_cons, hne, if_false, Bool.false_eq_true]
      simp only [findByProviderId, List.find?, hqw]
      exact ih h1' h2' hrest

/-- C6: the Google strategy callback is the three-way identity resolution:
a `(provider, externalId)` match is returned with the record and the store
unchanged (idempotent repeat login); otherwise an email match is linked
(acquiring `oauthProvider = google`, `oauthId`, verified) while keeping its
password hash, the store still holds exactly one record with that email,
and an immediate repeat login with the same external id returns that linked
record unchanged; otherwise a brand-new passwordless record is created and
appended. -/
theorem oauth_identity_resolution (db : List User) (pid email dn : String)
    (rand newId : Nat) (u : User) (ph : String)
    (h1 : findByProviderId db "google" pid = none)
    (h2 : db.find? (fun w => w.email == email) = some u)
    (hids : (db.map User.id).Nodup)
    (hpw : u.passwordHash = some ph)
    (hcount : db.countP (fun v => v.email == email) = 1) :
    (resolveGoogle db pid email dn rand newId).fst = linkOAuth "google" pid u
  ∧ (resolveGoogle db pid email dn rand newId).fst.passwordHash = some ph
  ∧ (resolveGoogle db pid email dn rand newId).fst.oauthId = some pid
  ∧ (resolveGoogle db pid email dn rand newId).fst.isVerified = true
  ∧ (resolveGoogle db pid email dn rand newId).snd.countP
      (fun v => v.email == email) = 1
  ∧ (resolveGoogle db pid email dn rand newId).fst
      ∈ (resolveGoogle db pid email dn rand newId).snd
  ∧ resolveGoogle (resolveGoogle db pid email dn rand newId).snd pid email
      dn rand newId
    = ((resolveGoogle db pid email dn rand newId).fst,
       (resolveGoogle db pid email dn rand newId).snd)
  ∧ (∀ db2 pid2 e2 dn2 rd2 nid2 u2,
      findByProviderId db2 "google" pid2 = some u2 →
      resolveGoogle db2 pid2 e2 dn2 rd2 nid2 = (u2, db2))
  ∧ (∀ db2 pid2 e2 dn2 rd2 nid2,
      findByProviderId db2 "google" pid2 = none →
      db2.find? (fun w => w.email == e2) = none →
        (resolveGoogle db2 pid2 e2 dn2 rd2 nid2).fst.passwordHash = none
      ∧ (resolveGoogle db2 pid2 e2 dn2 rd2 nid2).fst.oauthId = some pid2
      ∧ (resolveGoogle db2 pid2 e2 dn2 rd2 nid2).snd
          = db2 ++ [(resolveGoogle db2 pid2 e2 dn2 rd2 nid2).fst]) := by
  have hres : resolveGoogle db pid email dn rand newId
      = (linkOAuth "google" pid u,
         updateById db u.id (linkOAuth "google" pid)) := by
    simp only [resolveGoogle, h1, h2]
  refine ⟨by rw [hres], ?_, by rw [hres]; rfl, by rw [hres]; rfl, ?_, ?_,
    ?_, ?_, ?_⟩
  · rw [hres]; simp [linkOAuth, hpw]
  · rw [hres]
    simp only [updateById, List.countP_map]
    have : ((fun v : User => v.email == email) ∘
        (fun v => if v.id == u.id then linkOAuth "google" pid v else v))
        = fun v : User => v.email == email := by
      funext v
      by_cases hc : (v.id == u.id) = true <;>
        simp [Function.comp, hc, linkOAuth]
    rw [this]
    exact hcount
  · rw [hres]
    simp only [updateById, List.mem_map]
    exact ⟨u, List.mem_of_find?_eq_some h2, by simp⟩
  · rw [hres]
    simp only [resolveGoogle, find_after_link db pid email u h1 h2 hids]
  · intro db2 pid2 e2 dn2 rd2 nid2 u2 hfind
    simp only [resolveGoogle, hfind]
  · intro db2 pid2 e2 dn2 rd2 nid2 hn1 hn2
    refine ⟨?_, ?_, ?_⟩ <;> simp only [resolveGoogle, hn1, hn2] <;> rfl

/-- Witness for C6: a one-user store holding the local account
`alice@x.com`; a Google login with the same email links onto it, keeps its
password hash, leaves exactly one record with that email, and a repeat
login with the same external id returns it unchanged; resolution against an
empty store creates a passwordless record. -/
theorem oauth_identity_resolution_witness :
    (resolveGoogle [baseUser] "g123" "alice@x.com" "Alice W" 7 42).fst
      = linkOAuth "google" "g123" baseUser
  ∧ (resolveGoogle [baseUser] "g123" "alice@x.com" "Alice W" 7
      42).fst.passwordHash = some "$2b$12$storedhash"
  ∧ (resolveGoogle [baseUser] "g123" "alice@x.com" "Alice W" 7 42).snd.countP
      (fun v => v.email == "alice@x.com") = 1
  ∧ resolveGoogle
      (resolveGoogle [baseUser] "g123" "alice@x.com" "Alice W" 7 42).snd
      "g123" "alice@x.com" "Alice W" 7 42
    = ((resolveGoogle [baseUser] "g123" "alice@x.com" "Alice W" 7 42).fst,
       (resolveGoogle [baseUser] "g123" "alice@x.com" "Alice W" 7 42).snd)
  ∧ (resolveGoogle [] "g9" "new@x.com" "New User" 3 50).fst.passwordHash
      = none :=
  let T := oauth_identity_resolution [baseUser] "g123" "alice@x.com"
    "Alice W" 7 42 baseUser "$2b$12$storedhash" (by decide) (by decide)
    (by decide) rfl (by decide)
  ⟨T.1, T.2.1, T.2.2.2.2.1, T.2.2.2.2.2.2.1,
   (T.2.2.2.2.2.2.2.2 [] "g9" "new@x.com" "New User" 3 50 rfl rfl).1⟩

/-- An inactive (soft-deleted) user with a linked Google identity. -/
def inactiveOAuthUser : User :=
  { baseUser with id := 2, username := "bob0", email := "bob@x.com",
                  isActive := false, oauthProvider := "google",
                  oauthId := some "g77" }

/-- Refresh claims minted for the inactive user at epoch 0. -/
def inactiveClaims : RefreshClaims := ⟨2, 0, "refresh"⟩

/-- Access claims minted for the inactive user at epoch 0. -/
def inactiveAccess : AccessClaims :=
  ⟨2, "bob@x.com", "bob0", "user", "free", 0⟩

/-- C7 counterexample: the OAuth resolution path performs no `isActive`
check — a repeat Google login for a soft-deleted account returns that
inactive record (which the callback then mints tokens for), so not every
identity-resolving entry point rejects inactive accounts. -/
theorem oauth_returns_inactive_cex :
    (resolveGoogle [inactiveOAuthUser] "g77" "bob@x.com" "Bob" 5 9).fst
      = inactiveOAuthUser
  ∧ (resolveGoogle [inactiveOAuthUser] "g77" "bob@x.com" "Bob" 5
      9).fst.isActive = false := by
  exact ⟨by decide, by decide⟩

/-- C7 amended: password login (its lookup filters on `isActive: true`),
refresh and the bearer-token middleware all reject inactive accounts, but
the OAuth resolution path performs no `isActive` check and returns whatever
record matches the `(provider, externalId)` pair, inactive or not. -/
theorem inactive_account_rejection :
    (∀ (checkPw : String → String → Bool) (db : List User)
        (e un : Option String) (pw : String) (now : Nat) (r : User)
        (db2 : List User),
        login checkPw db e un pw now = (.ok r, db2) → r.isActive = true)
  ∧ (∀ (db : List User) (c : RefreshClaims) (v : User),
        findById db c.userId = some v → v.isActive = false →
        refreshTokenOp db c = .error invalidRefreshErr)
  ∧ (∀ (db : List User) (d : AccessClaims) (v : User),
        findById db d.userId = some v → v.isActive = false →
        authenticateTokenMw db d = .error userNotFoundOrInactiveErr)
  ∧ (∀ (db : List User) (pid e dn : String) (rd nid : Nat) (v : User),
        findByProviderId db "google" pid = some v →
        resolveGoogle db pid e dn rd nid = (v, db)) := by
  refine ⟨?_, ?_, ?_, ?_⟩
  · intro checkPw db e un pw now r db2 hlogin
    cases hf : db.find? (matchesLogin e un) with
    | none =>
      simp only [login, hf] at hlogin
      exact absurd hlogin (by simp)
    | some u =>
      have hact : u.isActive = true := by
        have hp := List.find?_some hf
        simp only [matchesLogin, Bool.and_eq_true] at hp
        exact hp.2
      simp only [login, hf] at hlogin
      by_cases hl : isLocked u now = true
      · rw [if_pos hl] at hlogin
        exact absurd hlogin (by simp)
      · rw [if_neg hl] at hlogin
        by_cases hc : comparePassword checkPw u pw = true
        · rw [if_pos hc] at hlogin
          injection hlogin with hfst hsnd
          injection hfst with hfst'
          rw [← hfst']
          by_cases hla : u.loginAttempts > 0 <;>
            simp [hla, resetLoginAttempts, hact]
        · rw [if_neg hc] at hlogin
          exact absurd hlogin (by simp)
  · intro db c v hfind hinact
    simp only [refreshTokenOp, hfind]
    rw [if_neg (fun h => absurd h.1 (by simp [hinact]))]
  · intro db d v hfind hinact
    simp only [authenticateTokenMw, hfind]
    rw [if_neg (by simp [hinact])]
  · intro db pid e dn rd nid v hfind
    simp only [resolveGoogle, hfind]

/-- Witness for the amended C7: a successful login yields an active user,
while refresh and the middleware reject the concrete inactive account that
OAuth resolution happily returns. -/
theorem inactive_account_rejection_witness :
    ({ baseUser with lastLogin := some 50 } : User).isActive = true
  ∧ refreshTokenOp [inactiveOAuthUser] inactiveClaims
      = .error invalidRefreshErr
  ∧ authenticateTokenMw [inactiveOAuthUser] inactiveAccess
      = .error userNotFoundOrInactiveErr
  ∧ resolveGoogle [inactiveOAuthUser] "g77" "bob@x.com" "Bob" 5 9
      = (inactiveOAuthUser, [inactiveOAuthUser]) :=
  ⟨inactive_account_rejection.1 (fun _ _ => true) [baseUser]
      (some "alice@x.com") none "pw" 50 { baseUser with lastLogin := some 50 }
      [{ baseUser with lastLogin := some 50 }] (by decide),
   inactive_account_rejection.2.1 [inactiveOAuthUser] inactiveClaims
      inactiveOAuthUser (by decide) (by decide),
   inactive_account_rejection.2.2.1 [inactiveOAuthUser] inactiveAccess
      inactiveOAuthUser (by decide) (by decide),
   inactive_account_rejection.2.2.2 [inactiveOAuthUser] "g77" "bob@x.com"
      "Bob" 5 9 inactiveOAuthUser (by decide)⟩

/-- A concrete stand-in for the bcrypt hash oracle. -/
def bhashEx : String → String := fun s => "$2b$12$h" ++ s

/-- C8 counterexample: the auth-service pre-save hook skips hashing any
value that starts with `$2`, so a caller-supplied plaintext password such
as `$2Abcdefg1` (which passes the password validator) is persisted
verbatim, not run through bcrypt. -/
theorem plaintext_password_stored_cex :
    hashIfNotBcrypt bhashEx "$2Abcdefg1" = "$2Abcdefg1"
  ∧ bhashEx "$2Abcdefg1" ≠ "$2Abcdefg1"
  ∧ (applyPasswordChange bhashEx baseUser "$2Abcdefg1").passwordHash
      = some "$2Abcdefg1" := by
  exact ⟨by decide, by decide, by decide⟩

/-- C8 amended: every save path that sets the password runs it through
bcrypt before persistence for all plaintext inputs that do not begin with
`$2` (the auth-service hook treats a `$2` value as an already-stored
bcrypt hash and skips it); the `database/mongodb` schema hook always
hashes. -/
theorem password_hashing_amended (bhash : String → String) (p : String)
    (hp : startsWithBcryptMarker p = false) (hb : bhash p ≠ p) :
    hashIfNotBcrypt bhash p = bhash p
  ∧ hashIfNotBcrypt bhash p ≠ p
  ∧ dbSchemaStoredPassword bhash p = bhash p
  ∧ (∀ u, (applyPasswordChange bhash u p).passwordHash = some (bhash p))
  ∧ (∀ u, (applyPasswordReset bhash u p).passwordHash = some (bhash p)) := by
  have h1 : hashIfNotBcrypt bhash p = bhash p := by
    simp [hashIfNotBcrypt, hp]
  exact ⟨h1, fun hcontra => hb (h1.symm.trans hcontra), rfl,
    fun u => by simp [applyPasswordChange, h1],
    fun u => by simp [applyPasswordReset, h1]⟩

/-- Witness for the amended C8 at a plaintext not beginning with `$2`. -/
theorem password_hashing_amended_witness :
    hashIfNotBcrypt bhashEx "Secret123" = bhashEx "Secret123"
  ∧ hashIfNotBcrypt bhashEx "Secret123" ≠ "Secret123"
  ∧ dbSchemaStoredPassword bhashEx "Secret123" = bhashEx "Secret123"
  ∧ (applyPasswordChange bhashEx baseUser "Secret123").passwordHash
      = some (bhashEx "Secret123")
  ∧ (applyPasswordReset bhashEx baseUser "Secret123").passwordHash
      = some (bhashEx "Secret123") :=
  let T := password_hashing_amended bhashEx "Secret123" (by decide)
    (by decide)
  ⟨T.1, T.2.1, T.2.2.1, T.2.2.2.1 baseUser, T.2.2.2.2 baseUser⟩

lemma applyIncrementFrom_count (s store : User) (now : Nat)
    (hs : s.lockUntil = none) :
    (applyIncrementFrom s now store).loginAttempts
      = store.loginAttempts + 1 := by
  have hexp : lockExpired s now = false := by simp [lockExpired, hs]
  unfold applyIncrementFrom
  by_cases hc : s.loginAttempts + 1 ≥ maxLoginAttempts ∧ isLocked s now = false
  · rw [hexp, if_neg (by simp), if_pos hc]
  · rw [hexp, if_neg (by simp), if_neg hc]

lemma applyIncrementFrom_lockUntil_low (s store : User) (now : Nat)
    (hs : s.lockUntil = none)
    (hlow : s.loginAttempts + 1 < maxLoginAttempts) :
    (applyIncrementFrom s now store).lockUntil = store.lockUntil := by
  have hexp : lockExpired s now = false := by simp [lockExpired, hs]
  unfold applyIncrementFrom
  rw [hexp, if_neg (by simp), if_neg (fun h => absurd h.1 (by omega))]

lemma parallelIncrements_count : ∀ (snaps : List User) (now : Nat)
    (store : User), (∀ s ∈ snaps, s.lockUntil = none) →
    (parallelIncrements snaps now store).loginAttempts
      = store.loginAttempts + snaps.length
  | [], _, _, _ => rfl
  | s :: rest, now, store, h => by
    have hs : s.lockUntil = none := h s (by simp)
    have hrest : ∀ x ∈ rest, x.lockUntil = none :=
      fun x hx => h x (by simp [hx])
    have heq : parallelIncrements (s :: rest) now store
        = parallelIncrements rest now (applyIncrementFrom s now store) := rfl
    rw [heq, parallelIncrements_count rest now _ hrest,
      applyIncrementFrom_count s store now hs]
    simp only [List.length_cons]
    omega

lemma parallelIncrements_lockUntil : ∀ (snaps : List User) (now : Nat)
    (store : User),
    (∀ s ∈ snaps, s.lockUntil = none
      ∧ s.loginAttempts + 1 < maxLoginAttempts) →
    (parallelIncrements snaps now store).lockUntil = store.lockUntil
  | [], _, _, _ => rfl
  | s :: rest, now, store, h => by
    obtain ⟨hs, hlow⟩ := h s (by simp)
    have hrest : ∀ x ∈ rest, x.lockUntil = none
        ∧ x.loginAttempts + 1 < maxLoginAttempts :=
      fun x hx => h x (List.mem_cons_of_mem s hx)
    have heq : parallelIncrements (s :: rest) now store
        = parallelIncrements rest now (applyIncrementFrom s now store) := rfl
    rw [heq, parallelIncrements_lockUntil rest now _ hrest,
      applyIncrementFrom_lockUntil_low s store now hs hlow]

/-- C9 counterexample: ten fully parallel failed attempts that all load the
record (snapshot counter 0) before any update commits: the atomic `$inc`
makes the final counter 10 — at or above the threshold 5 — yet no update
set `lockUntil`, so the account does not end locked. -/
theorem lockout_concurrency_cex :
    (parallelIncrements (List.replicate 10 baseUser) 1000
        baseUser).loginAttempts = 10
  ∧ maxLoginAttempts ≤ (parallelIncrements (List.replicate 10 baseUser) 1000
        baseUser).loginAttempts
  ∧ (parallelIncrements (List.replicate 10 baseUser) 1000
        baseUser).lockUntil = none
  ∧ isLocked (parallelIncrements (List.replicate 10 baseUser) 1000 baseUser)
        1001 = false := by
  exact ⟨by decide, by decide, by decide, by decide⟩

/-- C9 amended: the failed-attempt increment is an atomic `$inc` on the
store, so N racing updates never under-count (final counter reflects all
N); but the lock decision is computed from each request's loaded snapshot,
so updates whose snapshots were all below the threshold leave `lockUntil`
untouched even when the final counter passes 5 — the lock is set only by
an update whose snapshot already shows at least 4 failures. -/
theorem lockout_concurrency_amended (snaps : List User) (now : Nat)
    (store : User) (hsnaps : ∀ s ∈ snaps, s.lockUntil = none) :
    (parallelIncrements snaps now store).loginAttempts
      = store.loginAttempts + snaps.length
  ∧ ((∀ s ∈ snaps, s.loginAttempts + 1 < maxLoginAttempts) →
      (parallelIncrements snaps now store).lockUntil = store.lockUntil)
  ∧ (∀ s, s.lockUntil = none → s.loginAttempts + 1 ≥ maxLoginAttempts →
      (applyIncrementFrom s now store).lockUntil
        = some (now + lockTimeMs)) := by
  refine ⟨parallelIncrements_count snaps now store hsnaps, ?_, ?_⟩
  · intro hlow
    exact parallelIncrements_lockUntil snaps now store
      (fun s hs => ⟨hsnaps s hs, hlow s hs⟩)
  · intro s hs hge
    have hexp : lockExpired s now = false := by simp [lockExpired, hs]
    have hloc : isLocked s now = false := by simp [isLocked, hs]
    unfold applyIncrementFrom
    rw [hexp, if_neg (by simp), if_pos ⟨hge, hloc⟩]

/-- Witness for the amended C9: three parallel attempts from fresh
snapshots add exactly three to the counter and set no lock; an update from
a snapshot at 9 failures sets the lock. -/
theorem lockout_concurrency_amended_witness :
    (parallelIncrements (List.replicate 3 baseUser) 1000
        baseUser).loginAttempts = baseUser.loginAttempts + 3
  ∧ (parallelIncrements (List.replicate 3 baseUser) 1000
        baseUser).lockUntil = baseUser.lockUntil
  ∧ (applyIncrementFrom { baseUser with loginAttempts := 9 } 1000
        baseUser).lockUntil = some (1000 + lockTimeMs) :=
  let T := lockout_concurrency_amended (List.replicate 3 baseUser) 1000
    baseUser (by decide)
  ⟨T.1, T.2.1 (by decide),
   T.2.2 { baseUser with loginAttempts := 9 } rfl (by decide)⟩

/-- C10: the serialized `toJSON` output is independent of the values of the
eight sensitive fields it deletes (`passwordHash`, `loginAttempts`,
`lockUntil`, `emailVerificationToken`, `emailVerificationExpires`,
`passwordResetToken`, `passwordResetExpires`, `tokenVersion`). -/
theorem toJSON_independent_of_sensitive_fields (u : User) (ph : Option String)
    (la : Nat) (lu : Option Nat) (tv : Nat) (evt : Option String)
    (eve : Option Nat) (prt : Option String) (pre : Option Nat) :
    toJSONUser { u with passwordHash := ph, loginAttempts := la,
                        lockUntil := lu, tokenVersion := tv,
                        emailVerificationToken := evt,
                        emailVerificationExpires := eve,
                        passwordResetToken := prt,
                        passwordResetExpires := pre } = toJSONUser u := rfl

end LCAuth
